import Mathlib

/-!
# Speech-to-Avatar Synchronization Pipeline — verification development

Shallow embedding of the speech-to-avatar synchronization logic of the
repository's integration examples, chiefly:

* `examples/self-hosted/pipecat/agent_pipecat_daily.py`
  (`BitHumanAvatarProcessor.process_frame`, `_smart_flush`,
  `_push_audio_to_runtime`, `_render_loop`);
* `fastrtc/fastrtc_example.py` (`BitHumanHandler._generate_frames`).

Durations are exact rationals (the Python code uses floats); byte buffers of
16-bit mono PCM are represented by their sample counts (`len(bytes) = 2 * n`).
Real time inside polling loops is discretized at the loop's own
`check_interval`: the environment supplies one observed reading per poll tick.
-/

namespace AvatarPipeline

/-! ## Audio chunks and resampling (`_push_audio_to_runtime`) -/

/-- One TTS audio chunk as it reaches `process_frame`: `numSamples` 16-bit mono
samples (`len(frame.audio) = 2 * numSamples` bytes) at `sampleRate` Hz. -/
structure AudioChunk where
  numSamples : Nat
  sampleRate : Nat
  deriving DecidableEq, Repr

/-- Pre-resample duration in seconds, as tracked by `process_frame`:
`len(audio_bytes) / 2 / frame.sample_rate`. -/
def preResampleDuration (c : AudioChunk) : ℚ :=
  (c.numSamples : ℚ) / (c.sampleRate : ℚ)

/-- Number of samples produced by `_push_audio_to_runtime`'s resampling branch:
`num_samples = int(len(audio_float) * target_sample_rate / input_sample_rate)`
(`signal.resample` returns exactly that many samples); when the rates already
match, the chunk is forwarded unchanged. -/
def postResampleSamples (c : AudioChunk) (target : Nat) : Nat :=
  if c.sampleRate = target then c.numSamples
  else c.numSamples * target / c.sampleRate

/-- What `_push_audio_to_runtime` hands to `runtime.push_audio`: `none` when the
(post-resample) buffer is dropped by the degenerate-chunk guard
`if not audio_bytes or len(audio_bytes) < 2: return` (with
`len(audio_bytes) = 2 * samples`, that is exactly `samples = 0`). -/
def pushedSamples (c : AudioChunk) (target : Nat) : Option Nat :=
  let m := postResampleSamples c target
  if m = 0 then none else some m

/-- Total duration of audio the runtime actually receives from a chunk list:
each forwarded chunk contributes its post-resample duration at the target
rate, dropped chunks contribute nothing. -/
def receivedDuration (target : Nat) (cs : List AudioChunk) : ℚ :=
  (cs.map fun c =>
    match pushedSamples c target with
    | some m => (m : ℚ) / (target : ℚ)
    | none => 0).sum

/-- Sum of the pre-resample durations of a chunk list. -/
def preDurationSum (cs : List AudioChunk) : ℚ :=
  (cs.map preResampleDuration).sum

/-! ## The frame processor's event handling (`process_frame`)

State relevant to the synchronization logic of `BitHumanAvatarProcessor`:
the pending smart-flush task (`_flush_task` exists and is neither done nor
cancelled), the `_tts_active` flag, and the two duration counters. -/

/-- Mutable processor state. -/
structure ProcState where
  flush_pending : Bool
  tts_active : Bool
  input_audio_duration : ℚ
  output_audio_duration : ℚ
  deriving DecidableEq, Repr

/-- Initial processor state (constructor defaults). -/
def initState : ProcState := ⟨false, false, 0, 0⟩

/-- Externally observable effects of one `process_frame` step (or of the
scheduled `_smart_flush` task running to completion). `cancelFlushTask` is the
`self._flush_task.cancel()` + awaited `CancelledError`; the runtime calls mirror
`push_audio`, `flush` and `interrupt` on `AsyncBithuman`. -/
inductive Action where
  | cancelFlushTask
  | pushAudio (samples : Nat) (lastChunk : Bool)
  | interruptRuntime
  | flushRuntime
  deriving DecidableEq, Repr

/-- Frames that `process_frame` forwards downstream via `push_frame`. -/
inductive DownFrame where
  | ttsStarted
  | ttsStopped
  | interruption
  | video
  | audioOut (samples : Nat)
  | other
  deriving DecidableEq, Repr

/-- External events driving the processor: the frame kinds `process_frame`
dispatches on, plus the scheduled flush task running to completion
(`flushTaskFires`), which the event loop may interleave at any point while the
task is still pending. -/
inductive Event where
  | ttsAudio (c : AudioChunk)
  | ttsStarted
  | ttsStopped
  | interruption
  | flushTaskFires
  | other
  deriving DecidableEq, Repr

/-- Samples in the final silence chunk `_smart_flush` pushes with
`last_chunk=True`: `b"\x00" * 320` is 320 bytes, i.e. 160 int16 samples. -/
def silence_samples : Nat := 160

/-- Runtime calls issued by the tail of `_smart_flush` once its completion wait
finishes: the `last_chunk=True` silence push, then (after the bounded second
wait, which issues no runtime calls) `runtime.flush()`. -/
def smart_flush_calls : List Action :=
  [.pushAudio silence_samples true, .flushRuntime]

/-- Result of one step: successor state, runtime-facing actions in program
order, and frames pushed downstream. -/
structure StepResult where
  state : ProcState
  calls : List Action
  downstream : List DownFrame
  deriving DecidableEq, Repr

/-- One `process_frame` dispatch of `BitHumanAvatarProcessor` (daily agent),
restricted to the frames that touch the synchronization state, plus the
`flushTaskFires` pseudo-event for the scheduled `_smart_flush` completing.

* `ttsAudio`: adds the chunk's pre-resample duration to
  `_input_audio_duration`, cancels a pending flush task (before the push),
  then forwards the possibly-resampled, possibly-dropped chunk to the runtime
  with `last_chunk=False`; nothing goes downstream.
* `ttsStarted`: cancels a pending flush task, zeroes both duration counters,
  sets `_tts_active`, passes the frame through.
* `ttsStopped`: clears `_tts_active`, cancels a pending flush task and
  schedules a fresh `_smart_flush` task, passes the frame through.
* `interruption` (`StartInterruptionFrame`/`InterruptionFrame`): calls
  `runtime.interrupt()` then `await runtime.flush()`, passes the frame
  through; it touches nothing else (no task cancellation, no counter reset).
* `flushTaskFires`: if a task is pending it completes, issuing
  `smart_flush_calls`; otherwise nothing happens. -/
def process_frame (target : Nat) (st : ProcState) (e : Event) : StepResult :=
  match e with
  | .ttsAudio c =>
      let st1 := { st with input_audio_duration :=
                    st.input_audio_duration + preResampleDuration c }
      { state := { st1 with flush_pending := false }
        calls := (if st.flush_pending then [.cancelFlushTask] else []) ++
          (match pushedSamples c target with
           | some m => [.pushAudio m false]
           | none => [])
        downstream := [] }
  | .ttsStarted =>
      { state := { st with flush_pending := false, tts_active := true
                           input_audio_duration := 0, output_audio_duration := 0 }
        calls := if st.flush_pending then [.cancelFlushTask] else []
        downstream := [.ttsStarted] }
  | .ttsStopped =>
      { state := { st with flush_pending := true, tts_active := false }
        calls := if st.flush_pending then [.cancelFlushTask] else []
        downstream := [.ttsStopped] }
  | .interruption =>
      { state := st
        calls := [.interruptRuntime, .flushRuntime]
        downstream := [.interruption] }
  | .flushTaskFires =>
      if st.flush_pending then
        { state := { st with flush_pending := false }
          calls := smart_flush_calls
          downstream := [] }
      else
        { state := st, calls := [], downstream := [] }
  | .other =>
      { state := st, calls := [], downstream := [.other] }

/-- Run a whole event trace, logging each step's result. -/
def runTrace (target : Nat) (st : ProcState) : List Event → List (Event × StepResult)
  | [] => []
  | e :: es =>
      let r := process_frame target st e
      (e, r) :: runTrace target r.state es

/-- Final state after a trace. -/
def finalState (target : Nat) (st : ProcState) (es : List Event) : ProcState :=
  (runTrace target st es).foldl (fun _ p => p.2.state) st

/-- An all-audio trace: one `ttsAudio` event per chunk, in order. -/
def ttsAudioEvents (cs : List AudioChunk) : List Event := cs.map .ttsAudio

/-- Number of scheduled flush tasks that actually ran to completion (and hence
issued their `runtime.flush()`) along a trace. -/
def schedulerFlushCount (target : Nat) (st : ProcState) : List Event → Nat
  | [] => 0
  | e :: es =>
      (if e = .flushTaskFires ∧
          Action.flushRuntime ∈ (process_frame target st e).calls
       then 1 else 0) +
      schedulerFlushCount target (process_frame target st e).state es

/-- Number of speech-end (`TTSStoppedFrame`) events in a trace. -/
def stopCount : List Event → Nat
  | [] => 0
  | e :: es => (if e = .ttsStopped then 1 else 0) + stopCount es

/-- One when a flush task is pending, zero otherwise (bookkeeping for the
at-most-one-flush-per-speech-end invariant). -/
def pendingBit (st : ProcState) : Nat :=
  if st.flush_pending then 1 else 0

/-- Modelled from the spec: the opaque rendering runtime marks exactly one
final frame with `end_of_speech=True` per received `flush()` (§4.2: `flush()`
signals "no more audio is coming; drain and mark the final frame"). The
runtime's internals are outside the repository, so the end-of-speech frame
count is identified with the number of completed scheduler flushes. -/
def eosFrameCount (target : Nat) (st : ProcState) (es : List Event) : Nat :=
  schedulerFlushCount target st es

/-! ## The smart-flush scheduler (`_smart_flush`, daily agent)

The completion-wait loop polls `_output_audio_duration` every
`check_interval = 0.05 s` until `max_wait_time` has elapsed. Real time is
discretized at the poll period: the environment supplies one `Tick` per poll
(the observed output duration, and — for the zero-input fallback — the time
elapsed since `_last_audio_frame_time`, when that is set). -/

/-- Scheduler configuration: the processor's `flush_delay` constructor
argument (default `0.5`). -/
structure FlushConfig where
  flush_delay : ℚ
  deriving DecidableEq, Repr

/-- Code constant `max_wait_time = max(self._flush_delay * 2, 2.0)`. -/
def max_wait_time (cfg : FlushConfig) : ℚ := max (cfg.flush_delay * 2) 2

/-- Code constant `check_interval = 0.05` — the 50 ms poll period. -/
def check_interval : ℚ := 1 / 20

/-- Code constant `max_no_progress_checks = 20` — 1 second of no progress (20 polls of 50 ms). -/
def max_no_progress_checks : Nat := 20

/-- Number of poll ticks before the deadline `wait_start + max_wait_time`. -/
def num_ticks (cfg : FlushConfig) : Nat :=
  (⌈max_wait_time cfg / check_interval⌉).toNat

/-- Code constant `flush_wait_timeout = 1.0` — the second, shorter wait after the final
silence push. -/
def flush_wait_timeout : ℚ := 1

/-- Poll ticks of the second wait: `1.0 s / 0.05 s`. -/
def flush_num_ticks : Nat := 20

/-- One poll observation: `out` is `self._output_audio_duration` at this tick;
`sinceAudio` is `time.time() - self._last_audio_frame_time` when the latter is
set (used only by the zero-input fallback branch). -/
structure Tick where
  out : ℚ
  sinceAudio : Option ℚ
  deriving DecidableEq, Repr

/-- How the completion-wait loop ended. -/
inductive WaitExit where
  | completed
  | closeEnough
  | fallback
  | timeout
  deriving DecidableEq, Repr

/-- Loop-carried state: `last` is `last_output_duration`, `npc` is
`no_progress_count`. -/
structure WaitState where
  last : ℚ
  npc : Nat
  deriving DecidableEq, Repr

/-- Progress-counter update at the top of the loop body: progress resets
`no_progress_count` and records the new `last_output_duration`; otherwise the
counter increments. -/
def progress_update (st : WaitState) (t : Tick) : WaitState :=
  if st.last < t.out then ⟨t.out, 0⟩ else ⟨st.last, st.npc + 1⟩

/-- Break checks of the loop body, on the already-updated counter state:
`break` when `completion_ratio >= 0.98`; else, when the counter has reached
`max_no_progress_checks`, `break` if `completion_ratio >= 0.90`, otherwise
reset the counter and keep polling. -/
def wait_check (input : ℚ) (st1 : WaitState) (t : Tick) : WaitExit ⊕ WaitState :=
  if t.out / input ≥ 49 / 50 then .inl .completed
  else if max_no_progress_checks ≤ st1.npc then
    if t.out / input ≥ 9 / 10 then .inl .closeEnough
    else .inr ⟨st1.last, 0⟩
  else .inr st1

/-- One iteration of `_smart_flush`'s completion-wait loop body. With
`input > 0`: update the progress counter, then run the break checks. With
`input = 0`: the time-based fallback breaks once at least 0.3 s have passed
since the last audio frame. -/
def wait_step (input : ℚ) (st : WaitState) (t : Tick) : WaitExit ⊕ WaitState :=
  if 0 < input then
    wait_check input (progress_update st t) t
  else
    match t.sinceAudio with
    | some d => if 3 / 10 ≤ d then .inl .fallback else .inr st
    | none => .inr st

/-- The completion-wait loop over the ticks available before the deadline. -/
def wait_loop (input : ℚ) (st : WaitState) : List Tick → WaitExit
  | [] => .timeout
  | t :: ts =>
      match wait_step input st t with
      | .inl e => e
      | .inr st2 => wait_loop input st2 ts

/-- Follows the spec's words (claim C1): the scheduler proceeds early exactly
when the ratio reaches at least 0.98, or when `outputDuration` has made no
progress for 1 second (20 consecutive 50 ms polls) and the ratio is at least
0.90. `npc` here is the plain count of consecutive no-progress polls, never
artificially reset. -/
def spec_wait_check (input : ℚ) (st1 : WaitState) (t : Tick) : WaitExit ⊕ WaitState :=
  if t.out / input ≥ 49 / 50 then .inl .completed
  else if max_no_progress_checks ≤ st1.npc ∧ t.out / input ≥ 9 / 10 then
    .inl .closeEnough
  else .inr st1

/-- One spec-side poll: count consecutive no-progress polls honestly, then
apply the claim's two early-exit rules. -/
def spec_wait_step (input : ℚ) (st : WaitState) (t : Tick) : WaitExit ⊕ WaitState :=
  spec_wait_check input (progress_update st t) t

/-- The spec-side poll loop: keep polling until the deadline unless an early
exit fires. -/
def spec_wait_loop (input : ℚ) (st : WaitState) : List Tick → WaitExit
  | [] => .timeout
  | t :: ts =>
      match spec_wait_step input st t with
      | .inl e => e
      | .inr st2 => spec_wait_loop input st2 ts

/-- The observed output durations never decrease (the render loop only ever
adds to `_output_audio_duration`), starting from the value recorded in
`last_output_duration` before the loop. -/
def MonoFrom (x : ℚ) : List Tick → Prop
  | [] => True
  | t :: ts => x ≤ t.out ∧ MonoFrom t.out ts

/-- The second wait after the silence push: poll every 50 ms for up to
`flush_wait_timeout`, breaking (result `true`) as soon as
`completion_ratio >= 0.98`; with zero input it always times out. -/
def flush_wait_loop (input : ℚ) : List ℚ → Bool
  | [] => false
  | out :: ts =>
      if 0 < input ∧ 49 / 50 ≤ out / input then true
      else flush_wait_loop input ts

/-- The full observable outcome of one uncancelled `_smart_flush` run:
how the completion wait ended, whether the post-silence wait saw the ratio
recover, and the runtime calls it issued (the wait phases issue none). -/
structure SmartFlushResult where
  waitExit : WaitExit
  flushWaitCompleted : Bool
  calls : List Action
  deriving DecidableEq, Repr

/-- An uncancelled `_smart_flush` run: completion wait over the ticks before
the deadline, then the `last_chunk=True` silence push, then the bounded second
wait, then `runtime.flush()`. `last0` is `_output_audio_duration` at loop
entry; `ticks` and `outs2` are the observations available to the two waits. -/
def smart_flush (cfg : FlushConfig) (input last0 : ℚ)
    (ticks : List Tick) (outs2 : List ℚ) : SmartFlushResult :=
  { waitExit := wait_loop input ⟨last0, 0⟩ (ticks.take (num_ticks cfg))
    flushWaitCompleted := flush_wait_loop input (outs2.take flush_num_ticks)
    calls := smart_flush_calls }

/-! ## `_push_audio_to_runtime` under a throwing runtime (daily agent)

The body is wrapped in two handlers: the inner `try` around
`runtime.push_audio` logs the failure and re-raises; the enclosing `try` of the
whole function catches `Exception`, logs it, and falls through — the function
then returns normally, so nothing propagates to `process_frame`. -/

/-- What became of one `_push_audio_to_runtime` call. -/
inductive PushOutcome where
  | pushed (samples : Nat)
  | dropped
  | errorLogged (msg : String)
  deriving DecidableEq, Repr

/-- A `_push_audio_to_runtime` call as its caller sees it: the internal
outcome, the exception (if any) that escapes to `process_frame`, and how many
times `runtime.push_audio` was invoked. -/
structure PushCallResult where
  outcome : PushOutcome
  raisedToCaller : Option String
  pushAttempts : Nat
  deriving DecidableEq, Repr

/-- Model of `_push_audio_to_runtime`: resample/convert, drop degenerate buffers, then
call `runtime.push_audio` exactly once; a raised exception is logged by the
inner handler, re-raised, caught again by the function's outer
`except Exception` handler and logged — never retried and never propagated. -/
def push_audio_to_runtime (target : Nat) (c : AudioChunk)
    (runtimePush : Nat → Except String Unit) : PushCallResult :=
  match pushedSamples c target with
  | none => ⟨.dropped, none, 0⟩
  | some m =>
      match runtimePush m with
      | .ok _ => ⟨.pushed m, none, 1⟩
      | .error e => ⟨.errorLogged e, none, 1⟩

/-! ## The render loop (`_render_loop`, daily agent)

For each frame produced by `runtime.run()`: if it carries a `bgr_image`, push
one `OutputImageRawFrame` downstream; if it carries an `audio_chunk`, add its
duration to `_output_audio_duration` and push one `OutputAudioRawFrame`
downstream. -/

/-- A `RenderedFrame` from the runtime: optional video payload, optional audio
chunk `(samples, duration)`, and the `end_of_speech` marker. -/
structure BhFrame where
  image : Option Nat
  audio : Option (Nat × ℚ)
  end_of_speech : Bool
  deriving DecidableEq, Repr

/-- One `_render_loop` iteration: video first, then audio, exactly as the
daily agent's loop body orders its `push_frame` calls. -/
def render_step (st : ProcState) (f : BhFrame) : ProcState × List DownFrame :=
  let vids : List DownFrame :=
    match f.image with
    | some _ => [.video]
    | none => []
  match f.audio with
  | some nd =>
      ({ st with output_audio_duration := st.output_audio_duration + nd.2 },
        vids ++ [.audioOut nd.1])
  | none => (st, vids)

/-- The render loop over a finite prefix of the runtime's frame stream. -/
def render_loop (st : ProcState) : List BhFrame → ProcState × List DownFrame
  | [] => (st, [])
  | f :: fs =>
      let r1 := render_step st f
      let r2 := render_loop r1.1 fs
      (r2.1, r1.2 ++ r2.2)

/-- The audio payload of a downstream frame, if it is an audio frame. -/
def downAudio : DownFrame → Option Nat
  | .audioOut n => some n
  | _ => none

/-! ## The fastrtc frame generator (`_generate_frames`, fastrtc example)

Audio chunks are forwarded unconditionally; video frames are paced by the
`FPSController` before being forwarded; `end_of_speech` with a positive pushed
duration notifies the agent and resets the counter. -/

/-- Modelled from the spec: `FPSController` (from the external `bithuman`
utility library, not in the repository source) is the rate limiter of §4.5 —
frames arriving faster than the target frame rate are paced with a sleep.
`next_time` is the scheduled slot of the next frame; `wait_next_frame` returns
the remaining time until that slot (0 when it has passed), and `update`
records an emission and schedules the following slot one period later. -/
structure FPSController where
  period : ℚ
  next_time : ℚ
  deriving DecidableEq, Repr

/-- Time to wait before emitting a frame that arrives at `now`. -/
def FPSController.wait_next_frame (c : FPSController) (now : ℚ) : ℚ :=
  max 0 (c.next_time - now)

/-- Record an emission for a frame that arrived at `now` (the emission itself
happens at `max now c.next_time`, after any sleep). -/
def FPSController.update (c : FPSController) (now : ℚ) : FPSController :=
  ⟨c.period, max c.next_time now + c.period⟩

/-- A runtime frame as `_generate_frames` receives it: arrival time `t`,
optional audio `(payload, duration)`, optional video payload, `end_of_speech`
marker. -/
structure FrcFrame where
  t : ℚ
  audio : Option (Nat × ℚ)
  image : Option Nat
  end_of_speech : Bool
  deriving DecidableEq, Repr

/-- Observable actions of `_generate_frames`. -/
inductive GenOut where
  | audioOut (payload : Nat)
  | sleep (d : ℚ)
  | videoOut (payload : Nat)
  | notifyPlaybackFinished (dur : ℚ) (interrupted : Bool)
  deriving DecidableEq, Repr

/-- Generator state: the FPS controller and `pushed_duration`. -/
structure GenState where
  fps : FPSController
  pushed_duration : ℚ
  deriving DecidableEq, Repr

/-- One `_generate_frames` iteration, in the loop body's order: forward the
audio chunk (accumulating `pushed_duration`), then the video frame — sleeping
first whenever `wait_next_frame` is positive — then handle `end_of_speech`. -/
def generate_frames_step (st : GenState) (f : FrcFrame) : GenState × List GenOut :=
  let audioActs : List GenOut :=
    match f.audio with
    | some pd => [.audioOut pd.1]
    | none => []
  let dur : ℚ :=
    match f.audio with
    | some pd => pd.2
    | none => 0
  let pushed1 := st.pushed_duration + dur
  let videoActs : List GenOut :=
    match f.image with
    | some v =>
        (if 0 < st.fps.wait_next_frame f.t
         then [GenOut.sleep (st.fps.wait_next_frame f.t)] else []) ++ [.videoOut v]
    | none => []
  let fps1 : FPSController :=
    match f.image with
    | some _ => st.fps.update f.t
    | none => st.fps
  if f.end_of_speech ∧ 0 < pushed1 then
    (⟨fps1, 0⟩, audioActs ++ videoActs ++ [.notifyPlaybackFinished pushed1 false])
  else
    (⟨fps1, pushed1⟩, audioActs ++ videoActs)

/-- Runs `_generate_frames` over a finite prefix of the runtime's frame stream. -/
def generate_frames (st : GenState) : List FrcFrame → GenState × List GenOut
  | [] => (st, [])
  | f :: fs =>
      let r1 := generate_frames_step st f
      let r2 := generate_frames r1.1 fs
      (r2.1, r1.2 ++ r2.2)

/-- The video payload of a generator action, if it is a video emission. -/
def genVideo : GenOut → Option Nat
  | .videoOut v => some v
  | _ => none

/-- Whether a generator action is a sleep. -/
def isSleep : GenOut → Bool
  | .sleep _ => true
  | _ => false

end AvatarPipeline

namespace AvatarPipeline

/-! ## Theorems: resampling (C9 groundwork) -/

theorem postResampleSamples_cast_le (c : AudioChunk) (target : Nat)
    (hs : 0 < c.sampleRate) (ht : 0 < target) :
    (postResampleSamples c target : ℚ) / (target : ℚ) ≤
      (c.numSamples : ℚ) / (c.sampleRate : ℚ) := by
  unfold postResampleSamples
  by_cases h : c.sampleRate = target
  · simp [h]
  · simp only [if_neg h]
    have hcast : ((c.numSamples * target / c.sampleRate : Nat) : ℚ) ≤
        ((c.numSamples * target : Nat) : ℚ) / (c.sampleRate : ℚ) :=
      Nat.cast_div_le
    have hspos : (0 : ℚ) < (c.sampleRate : ℚ) := by exact_mod_cast hs
    have htpos : (0 : ℚ) < (target : ℚ) := by exact_mod_cast ht
    rw [div_le_div_iff htpos hspos]
    calc ((c.numSamples * target / c.sampleRate : Nat) : ℚ) * (c.sampleRate : ℚ)
        ≤ ((c.numSamples * target : Nat) : ℚ) / (c.sampleRate : ℚ) * (c.sampleRate : ℚ) := by
          exact mul_le_mul_of_nonneg_right hcast (le_of_lt hspos)
      _ = ((c.numSamples * target : Nat) : ℚ) := by
          field_simp
      _ = (c.numSamples : ℚ) * (target : ℚ) := by push_cast; ring

theorem postResampleSamples_cast_gt (c : AudioChunk) (target : Nat)
    (hs : 0 < c.sampleRate) (ht : 0 < target) :
    (c.numSamples : ℚ) / (c.sampleRate : ℚ) - 1 / (target : ℚ) <
      (postResampleSamples c target : ℚ) / (target : ℚ) := by
  unfold postResampleSamples
  have hspos : (0 : ℚ) < (c.sampleRate : ℚ) := by exact_mod_cast hs
  have htpos : (0 : ℚ) < (target : ℚ) := by exact_mod_cast ht
  by_cases h : c.sampleRate = target
  · subst h
    rw [if_pos rfl]
    have : (0 : ℚ) < 1 / (c.sampleRate : ℚ) := by positivity
    linarith
  · simp only [if_neg h]
    have hnat : c.numSamples * target <
        (c.numSamples * target / c.sampleRate + 1) * c.sampleRate :=
      (Nat.div_lt_iff_lt_mul hs).mp (Nat.lt_succ_self _)
    have hq : (c.numSamples : ℚ) * (target : ℚ) <
        (((c.numSamples * target / c.sampleRate : Nat) : ℚ) + 1) * (c.sampleRate : ℚ) := by
      exact_mod_cast hnat
    have goal2 : (c.numSamples : ℚ) / (c.sampleRate : ℚ) <
        (((c.numSamples * target / c.sampleRate : Nat) : ℚ) + 1) / (target : ℚ) := by
      rw [div_lt_div_iff hspos htpos]
      exact hq
    rw [add_div] at goal2
    linarith

/-! ## C9 — resampling preserves duration -/

/-- **C9**: for every audio chunk whose sample rate differs from the runtime's
fixed input rate, resampling preserves duration: an input of `n` samples at
source rate `s` yields an output of `int(n * t / s)` samples at target rate
`t`, so `len(output) / t` equals `n / s` within one (target-rate) sample; in
particular a 16 kHz, 1.0 s chunk resampled to 24 kHz yields output whose
length divided by 24000 equals 1.0 (within one sample, here exactly). -/
theorem C9_resample_preserves_duration (n s t : Nat) (hs : 0 < s) (ht : 0 < t)
    (hne : s ≠ t) :
    postResampleSamples ⟨n, s⟩ t = n * t / s ∧
    (postResampleSamples ⟨n, s⟩ t : ℚ) / (t : ℚ) ≤ (n : ℚ) / (s : ℚ) ∧
    (n : ℚ) / (s : ℚ) - (postResampleSamples ⟨n, s⟩ t : ℚ) / (t : ℚ) < 1 / (t : ℚ) ∧
    postResampleSamples ⟨16000, 16000⟩ 24000 = 24000 ∧
    (postResampleSamples ⟨16000, 16000⟩ 24000 : ℚ) / 24000 = 1 := by
  refine ⟨?_, postResampleSamples_cast_le ⟨n, s⟩ t hs ht, ?_, ?_, ?_⟩
  · simp [postResampleSamples, hne]
  · have h := postResampleSamples_cast_gt ⟨n, s⟩ t hs ht
    linarith
  · norm_num [postResampleSamples]
  · norm_num [postResampleSamples]

/-- Witness for C9 at the spec's own example: 16000 samples at 16 kHz
resampled to 24 kHz. -/
theorem C9_resample_preserves_duration_witness :
    postResampleSamples ⟨16000, 16000⟩ 24000 = 16000 * 24000 / 16000 ∧
    (postResampleSamples ⟨16000, 16000⟩ 24000 : ℚ) / ((24000 : Nat) : ℚ) ≤
      ((16000 : Nat) : ℚ) / ((16000 : Nat) : ℚ) ∧
    ((16000 : Nat) : ℚ) / ((16000 : Nat) : ℚ) -
      (postResampleSamples ⟨16000, 16000⟩ 24000 : ℚ) / ((24000 : Nat) : ℚ) <
      1 / ((24000 : Nat) : ℚ) ∧
    postResampleSamples ⟨16000, 16000⟩ 24000 = 24000 ∧
    (postResampleSamples ⟨16000, 16000⟩ 24000 : ℚ) / 24000 = 1 :=
  C9_resample_preserves_duration 16000 16000 24000 (by norm_num) (by norm_num)
    (by norm_num)

/-! ## C3 — behavior on an interrupt event -/

/-- **C3 (counterexample)**: with a flush-scheduler task pending and nonzero
completion counters, handling an interruption frame leaves the flush task
pending (it is never cancelled), performs no `cancelFlushTask`, and leaves
both completion counters untouched — contradicting the claim that the
pipeline cancels the active flush task, clears buffers, resets the counters
and transitions to Idle. -/
theorem C3_interrupt_counterexample :
    (process_frame 16000 ⟨true, false, 1, 1/2⟩ .interruption).state.flush_pending
        = true ∧
    Action.cancelFlushTask ∉
      (process_frame 16000 ⟨true, false, 1, 1/2⟩ .interruption).calls ∧
    (process_frame 16000 ⟨true, false, 1, 1/2⟩
        .interruption).state.input_audio_duration = 1 ∧
    (process_frame 16000 ⟨true, false, 1, 1/2⟩
        .interruption).state.output_audio_duration = 1/2 := by
  refine ⟨rfl, ?_, rfl, rfl⟩
  decide

/-- **C3 (amended)**: on an interrupt event, in every state, the pipeline
calls `interrupt()` on the runtime and then `flush()` immediately afterward,
and passes the interruption frame downstream; it does not cancel a pending
flush-scheduler task, does not clear queued downstream audio, does not reset
the completion-tracker counters, and performs no state transition. -/
theorem C3_interrupt_behavior (target : Nat) (st : ProcState) :
    (process_frame target st .interruption).calls =
      [.interruptRuntime, .flushRuntime] ∧
    (process_frame target st .interruption).state = st ∧
    (process_frame target st .interruption).downstream = [.interruption] :=
  ⟨rfl, rfl, rfl⟩

/-! ## C4 — input duration vs. audio the runtime received -/

/-- **C4 (counterexample)**: a valid 1-sample chunk at 48 kHz. Ingestion adds
its pre-resample duration `1/48000 s` to `inputDuration`, but resampling to
16 kHz floors the chunk to 0 samples and the degenerate-chunk guard drops it:
the runtime receives nothing (no `push_audio` call at all), so `inputDuration`
differs from the received post-resample duration by `1/48000 s` — far beyond
floating-point tolerance. -/
theorem C4_input_duration_counterexample :
    (finalState 16000 initState [.ttsAudio ⟨1, 48000⟩]).input_audio_duration
        = 1/48000 ∧
    receivedDuration 16000 [⟨1, 48000⟩] = 0 ∧
    (process_frame 16000 initState (.ttsAudio ⟨1, 48000⟩)).calls = [] ∧
    (1/48000 : ℚ) ≠ 0 ∧ (1/1000000000 : ℚ) < 1/48000 := by
  refine ⟨?_, ?_, ?_, by norm_num, by norm_num⟩
  · simp only [finalState, runTrace, List.foldl, process_frame, initState]
    norm_num [preResampleDuration]
  · norm_num [receivedDuration, pushedSamples, postResampleSamples]
  · norm_num [process_frame, pushedSamples, postResampleSamples, initState]

theorem finalState_cons (target : Nat) (st : ProcState) (e : Event)
    (es : List Event) :
    finalState target st (e :: es) =
      finalState target (process_frame target st e).state es := rfl

/-- **C4 (amended)**: for every sequence of valid audio chunks ingested while
the pipeline is active, `inputDuration` after ingestion equals the sum of each
chunk's pre-resample duration (`len(bytes) / 2 / sample_rate`, counted whether
or not the chunk survives resampling); the duration of audio the runtime
actually received is bounded above by this sum and can fall strictly below it
(floored resampled lengths, degenerate chunks dropped after being counted). -/
theorem C4_input_duration_amended (target : Nat) (st : ProcState)
    (cs : List AudioChunk) (ht : 0 < target)
    (hvalid : ∀ c ∈ cs, 0 < c.sampleRate) :
    (finalState target st (ttsAudioEvents cs)).input_audio_duration =
      st.input_audio_duration + preDurationSum cs ∧
    receivedDuration target cs ≤ preDurationSum cs := by
  constructor
  · clear hvalid
    induction cs generalizing st with
    | nil => simp [ttsAudioEvents, finalState, runTrace, preDurationSum]
    | cons c cs ih =>
        have hstep : finalState target st (ttsAudioEvents (c :: cs)) =
            finalState target (process_frame target st (.ttsAudio c)).state
              (ttsAudioEvents cs) := rfl
        rw [hstep, ih]
        simp only [process_frame, preDurationSum, List.map_cons, List.sum_cons]
        ring
  · induction cs with
    | nil => simp [receivedDuration, preDurationSum]
    | cons c cs ih =>
        have hc : 0 < c.sampleRate := hvalid c (List.mem_cons_self c cs)
        have ihs : receivedDuration target cs ≤ preDurationSum cs :=
          ih (fun x hx => hvalid x (List.mem_cons_of_mem c hx))
        have hhead : (match pushedSamples c target with
            | some m => (m : ℚ) / (target : ℚ)
            | none => 0) ≤ preResampleDuration c := by
          rcases hps : pushedSamples c target with _ | m
          · simp only [hps]
            unfold preResampleDuration
            positivity
          · simp only [hps]
            have hm : m = postResampleSamples c target := by
              unfold pushedSamples at hps
              by_cases h0 : postResampleSamples c target = 0 <;>
                simp [h0] at hps
              omega
            rw [hm]
            exact postResampleSamples_cast_le c target hc ht
        have hexp : receivedDuration target (c :: cs) =
            (match pushedSamples c target with
              | some m => (m : ℚ) / (target : ℚ)
              | none => 0) + receivedDuration target cs := by
          simp [receivedDuration]
        have hexp2 : preDurationSum (c :: cs) =
            preResampleDuration c + preDurationSum cs := by
          simp [preDurationSum]
        rw [hexp, hexp2]
        exact add_le_add hhead ihs

/-- Witness for the amended C4 on a single 10 ms chunk already at the target
rate. -/
theorem C4_input_duration_amended_witness :
    (finalState 16000 initState
        (ttsAudioEvents [⟨160, 16000⟩])).input_audio_duration =
      initState.input_audio_duration + preDurationSum [⟨160, 16000⟩] ∧
    receivedDuration 16000 [⟨160, 16000⟩] ≤ preDurationSum [⟨160, 16000⟩] :=
  C4_input_duration_amended 16000 initState [⟨160, 16000⟩] (by norm_num)
    (by intro c hc; rw [List.mem_singleton] at hc; subst hc; norm_num)

/-! ## C8 — throwing push/flush calls -/

/-- **C8 (counterexample)**: when `runtime.push_audio` throws,
`_push_audio_to_runtime` logs the error (inner handler), re-raises it into its
own enclosing handler, which logs it again and falls through: the call is made
exactly once, but nothing is raised to the caller — contradicting the claim
that the error is surfaced to the caller with a transition to Idle. -/
theorem C8_push_error_counterexample :
    push_audio_to_runtime 16000 ⟨160, 16000⟩ (fun _ => .error "boom") =
      ⟨.errorLogged "boom", none, 1⟩ := rfl

/-- **C8 (amended)**: if a push into the rendering runtime throws, the failed
call is never retried (at most one `push_audio` invocation per chunk) and the
exception is recorded as `errorLogged`, but it is swallowed by
`_push_audio_to_runtime`'s own exception handler: no error reaches
`process_frame` and no state transition occurs. -/
theorem C8_push_error_swallowed (target : Nat) (c : AudioChunk)
    (res : Except String Unit) :
    (push_audio_to_runtime target c (fun _ => res)).pushAttempts ≤ 1 ∧
    (push_audio_to_runtime target c (fun _ => res)).raisedToCaller = none ∧
    (∀ e, res = .error e → (∃ m, pushedSamples c target = some m) →
      (push_audio_to_runtime target c (fun _ => res)).outcome =
        .errorLogged e) := by
  rcases hps : pushedSamples c target with _ | m
  · refine ⟨?_, ?_, ?_⟩ <;> simp [push_audio_to_runtime, hps]
  · rcases res with u | e
    · refine ⟨?_, ?_, ?_⟩ <;> simp [push_audio_to_runtime, hps]
    · refine ⟨?_, ?_, ?_⟩ <;> simp [push_audio_to_runtime, hps]

/-- Witness for the amended C8: a 10 ms chunk at the target rate with a
runtime whose push throws. -/
theorem C8_push_error_swallowed_witness :
    (push_audio_to_runtime 16000 ⟨160, 16000⟩
        (fun _ => .error "boom")).outcome = .errorLogged "boom" ∧
    (push_audio_to_runtime 16000 ⟨160, 16000⟩
        (fun _ => .error "boom")).raisedToCaller = none ∧
    (push_audio_to_runtime 16000 ⟨160, 16000⟩
        (fun _ => .error "boom")).pushAttempts ≤ 1 :=
  ⟨(C8_push_error_swallowed 16000 ⟨160, 16000⟩ (.error "boom")).2.2 "boom" rfl
      ⟨160, rfl⟩,
   (C8_push_error_swallowed 16000 ⟨160, 16000⟩ (.error "boom")).2.1,
   (C8_push_error_swallowed 16000 ⟨160, 16000⟩ (.error "boom")).1⟩

/-! ## C10 — TTS audio never goes downstream -/

theorem render_step_audio (st : ProcState) (f : BhFrame) :
    (render_step st f).2.filterMap downAudio =
      (f.audio.map Prod.fst).toList := by
  rcases f with ⟨img, aud, eos⟩
  rcases img with _ | v <;> rcases aud with _ | nd <;>
    simp [render_step, downAudio]

theorem render_loop_audio (st : ProcState) (fs : List BhFrame) :
    (render_loop st fs).2.filterMap downAudio =
      fs.filterMap (fun f => f.audio.map Prod.fst) := by
  induction fs generalizing st with
  | nil => rfl
  | cons f fs ih =>
      simp only [render_loop, List.filterMap_append, List.filterMap_cons]
      rw [render_step_audio, ih]
      rcases haud : f.audio with _ | nd <;> simp [haud]

/-- **C10**: processing an incoming TTS audio frame pushes nothing downstream
within that call — its effects are confined to the flush-task cancellation and
the (non-last-chunk) push into the rendering runtime — and the downstream
audio frames emitted by the render loop are exactly the audio chunks of the
runtime-produced frames, in order. -/
theorem C10_tts_audio_stays_upstream (target : Nat) (st st2 : ProcState)
    (c : AudioChunk) (fs : List BhFrame) :
    (process_frame target st (.ttsAudio c)).downstream = [] ∧
    (∀ a ∈ (process_frame target st (.ttsAudio c)).calls,
        a = .cancelFlushTask ∨ ∃ m, a = .pushAudio m false) ∧
    (render_loop st2 fs).2.filterMap downAudio =
      fs.filterMap (fun f => f.audio.map Prod.fst) := by
  refine ⟨rfl, ?_, render_loop_audio st2 fs⟩
  intro a ha
  by_cases hp : st.flush_pending <;>
    rcases hps : pushedSamples c target with _ | m <;>
    simp [process_frame, hp, hps] at ha <;>
    first
      | (left; exact ha)
      | (right; exact ⟨m, ha⟩)
      | (rcases ha with ha | ha
         · left; exact ha
         · right; exact ⟨m, ha⟩)

/-- Witness for C10 on a concrete state with a pending flush task, a 10 ms
chunk, and one runtime frame carrying both video and audio. -/
theorem C10_tts_audio_stays_upstream_witness :
    (process_frame 16000 ⟨true, true, 0, 0⟩
        (.ttsAudio ⟨160, 16000⟩)).downstream = [] ∧
    (Action.cancelFlushTask = Action.cancelFlushTask ∨
      ∃ m, Action.cancelFlushTask = Action.pushAudio m false) ∧
    (render_loop initState [⟨some 7, some (320, 1/50), false⟩]).2.filterMap
        downAudio =
      ([⟨some 7, some (320, 1/50), false⟩] : List BhFrame).filterMap
        (fun f => f.audio.map Prod.fst) :=
  ⟨(C10_tts_audio_stays_upstream 16000 ⟨true, true, 0, 0⟩ initState
      ⟨160, 16000⟩ [⟨some 7, some (320, 1/50), false⟩]).1,
   (C10_tts_audio_stays_upstream 16000 ⟨true, true, 0, 0⟩ initState
      ⟨160, 16000⟩ [⟨some 7, some (320, 1/50), false⟩]).2.1
      Action.cancelFlushTask (by decide),
   (C10_tts_audio_stays_upstream 16000 ⟨true, true, 0, 0⟩ initState
      ⟨160, 16000⟩ [⟨some 7, some (320, 1/50), false⟩]).2.2⟩

/-! ## C5 — finalizing a zero-input utterance -/

theorem wait_loop_zero_input (ts : List Tick) (st : WaitState) :
    (wait_loop 0 st ts = .fallback ∨ wait_loop 0 st ts = .timeout) ∧
    (wait_loop 0 st ts = .fallback ↔
      ∃ t ∈ ts, ∃ d, t.sinceAudio = some d ∧ 3/10 ≤ d) := by
  induction ts generalizing st with
  | nil => simp [wait_loop]
  | cons t ts ih =>
      rcases hsa : t.sinceAudio with _ | d
      · have hstep : wait_step 0 st t = .inr st := by
          simp [wait_step, hsa]
        simp only [wait_loop, hstep]
        refine ⟨(ih st).1, ?_⟩
        rw [(ih st).2]
        simp [hsa]
      · by_cases hd : (3:ℚ)/10 ≤ d
        · have hstep : wait_step 0 st t = .inl .fallback := by
            simp [wait_step, hsa, hd]
          simp only [wait_loop, hstep]
          refine ⟨Or.inl trivial, ?_⟩
          constructor
          · intro _
            exact ⟨t, List.mem_cons_self _ _, d, hsa, hd⟩
          · intro _
            trivial
        · have hstep : wait_step 0 st t = .inr st := by
            simp [wait_step, hsa, hd]
          simp only [wait_loop, hstep]
          refine ⟨(ih st).1, ?_⟩
          rw [(ih st).2]
          simp [hsa, hd]

/-- **C5 (counterexample)**: a `_smart_flush` run for an utterance with zero
input duration (no audio ever arrived: no readings, no last-audio timestamp)
still calls `flush()` on the runtime — after the full deadline (`waitExit`
is `timeout`, not an immediate return). The claimed no-op with an immediate
Idle transition is false. -/
theorem C5_zero_input_counterexample :
    Action.flushRuntime ∈ (smart_flush ⟨1/2⟩ 0 0 [] []).calls ∧
    (smart_flush ⟨1/2⟩ 0 0 [] []).waitExit = .timeout := by
  constructor
  · simp [smart_flush, smart_flush_calls]
  · simp [smart_flush, wait_loop]

/-- **C5 (amended)**: finalizing an utterance with zero input duration is not
a no-op: the scheduler's poll loop can end only through the time-based
fallback (some poll sees at least 0.3 s elapsed since the last audio frame)
or by running out the deadline, and in either case the scheduler still pushes
the final `last_chunk=True` silence and calls `flush()` on the runtime. -/
theorem C5_zero_input_not_noop (cfg : FlushConfig) (last0 : ℚ)
    (ticks : List Tick) (outs2 : List ℚ) :
    (smart_flush cfg 0 last0 ticks outs2).calls =
      [.pushAudio silence_samples true, .flushRuntime] ∧
    Action.flushRuntime ∈ (smart_flush cfg 0 last0 ticks outs2).calls ∧
    ((smart_flush cfg 0 last0 ticks outs2).waitExit = .fallback ∨
      (smart_flush cfg 0 last0 ticks outs2).waitExit = .timeout) ∧
    ((smart_flush cfg 0 last0 ticks outs2).waitExit = .fallback ↔
      ∃ t ∈ ticks.take (num_ticks cfg),
        ∃ d, t.sinceAudio = some d ∧ 3/10 ≤ d) := by
  refine ⟨rfl, by simp [smart_flush, smart_flush_calls], ?_, ?_⟩
  · exact (wait_loop_zero_input (ticks.take (num_ticks cfg)) ⟨last0, 0⟩).1
  · exact (wait_loop_zero_input (ticks.take (num_ticks cfg)) ⟨last0, 0⟩).2

/-! ## C2 — new audio cancels the pending flush; one flush per utterance -/

theorem schedulerFlushCount_le (target : Nat) (es : List Event) :
    ∀ st : ProcState,
      schedulerFlushCount target st es ≤ stopCount es + pendingBit st := by
  induction es with
  | nil =>
      intro st
      simp [schedulerFlushCount, stopCount]
  | cons e es ih =>
    intro st
    have hrec : schedulerFlushCount target st (e :: es) =
        (if e = .flushTaskFires ∧
            Action.flushRuntime ∈ (process_frame target st e).calls
         then 1 else 0) +
        schedulerFlushCount target (process_frame target st e).state es := rfl
    have hstop : stopCount (e :: es) =
        (if e = .ttsStopped then 1 else 0) + stopCount es := rfl
    have hnext := ih (process_frame target st e).state
    rw [hrec, hstop]
    cases e with
    | ttsAudio c =>
        have hw : (if Event.ttsAudio c = .flushTaskFires ∧
            Action.flushRuntime ∈
              (process_frame target st (.ttsAudio c)).calls
            then 1 else 0) = 0 := by simp
        have hs : (if Event.ttsAudio c = Event.ttsStopped then 1 else 0) = 0 := by
          simp
        have hpend : pendingBit (process_frame target st (.ttsAudio c)).state
            = 0 := rfl
        rw [hw, hs]
        rw [hpend] at hnext
        omega
    | ttsStarted =>
        have hw : (if Event.ttsStarted = .flushTaskFires ∧
            Action.flushRuntime ∈ (process_frame target st .ttsStarted).calls
            then 1 else 0) = 0 := by simp
        have hs : (if Event.ttsStarted = Event.ttsStopped then 1 else 0) = 0 := by
          simp
        have hpend : pendingBit (process_frame target st .ttsStarted).state
            = 0 := rfl
        rw [hw, hs]
        rw [hpend] at hnext
        omega
    | ttsStopped =>
        have hw : (if Event.ttsStopped = .flushTaskFires ∧
            Action.flushRuntime ∈ (process_frame target st .ttsStopped).calls
            then 1 else 0) = 0 := by simp
        have hs : (if Event.ttsStopped = Event.ttsStopped then 1 else 0) = 1 := by
          simp
        have hpend : pendingBit (process_frame target st .ttsStopped).state
            = 1 := rfl
        rw [hw, hs]
        rw [hpend] at hnext
        omega
    | interruption =>
        have hw : (if Event.interruption = .flushTaskFires ∧
            Action.flushRuntime ∈ (process_frame target st .interruption).calls
            then 1 else 0) = 0 := by simp
        have hs : (if Event.interruption = Event.ttsStopped then 1 else 0) = 0 := by
          simp
        have hpend : pendingBit (process_frame target st .interruption).state
            = pendingBit st := rfl
        rw [hw, hs]
        rw [hpend] at hnext
        omega
    | flushTaskFires =>
        have hs : (if Event.flushTaskFires = Event.ttsStopped then 1 else 0)
            = 0 := by simp
        rw [hs]
        by_cases hp : st.flush_pending
        · have hstep : process_frame target st .flushTaskFires =
              { state := { st with flush_pending := false }
                calls := smart_flush_calls
                downstream := [] } := by
            simp [process_frame, hp]
          have hw : (if Event.flushTaskFires = .flushTaskFires ∧
              Action.flushRuntime ∈
                (process_frame target st .flushTaskFires).calls
              then 1 else 0) = 1 := by
            rw [if_pos]
            exact ⟨rfl, by rw [hstep]; simp [smart_flush_calls]⟩
          have hpend : pendingBit (process_frame target st .flushTaskFires).state
              = 0 := by
            rw [hstep]
            rfl
          have hpb : pendingBit st = 1 := by simp [pendingBit, hp]
          rw [hw, hpb]
          rw [hpend] at hnext
          omega
        · have hstep : process_frame target st .flushTaskFires =
              { state := st, calls := [], downstream := [] } := by
            simp [process_frame, hp]
          have hw : (if Event.flushTaskFires = .flushTaskFires ∧
              Action.flushRuntime ∈
                (process_frame target st .flushTaskFires).calls
              then 1 else 0) = 0 := by
            rw [if_neg]
            rintro ⟨-, h⟩
            rw [hstep] at h
            simp at h
          have hpend : pendingBit (process_frame target st .flushTaskFires).state
              = pendingBit st := by
            rw [hstep]
          rw [hw]
          rw [hpend] at hnext
          omega
    | other =>
        have hw : (if Event.other = .flushTaskFires ∧
            Action.flushRuntime ∈ (process_frame target st .other).calls
            then 1 else 0) = 0 := by simp
        have hs : (if Event.other = Event.ttsStopped then 1 else 0) = 0 := by
          simp
        have hpend : pendingBit (process_frame target st .other).state
            = pendingBit st := rfl
        rw [hw, hs]
        rw [hpend] at hnext
        omega

/-- **C2**: whenever a new TTS audio chunk arrives while a scheduled flush
task is pending, the pending task is cancelled first — the cancellation is the
head of the step's call sequence, strictly before any runtime push — and the
pending flag is cleared; consequently, along every event trace from the
initial state, the number of completed scheduler `flush()` calls (and hence,
by the runtime contract, of `end_of_speech` frames) never exceeds the number
of speech-end events: for an utterance delivered in several discontinuous
bursts at most one flush is ultimately issued. -/
theorem C2_cancel_pending_flush_on_new_audio :
    (∀ (target : Nat) (st : ProcState) (c : AudioChunk),
      st.flush_pending = true →
        ((process_frame target st (.ttsAudio c)).calls.head? =
            some Action.cancelFlushTask ∧
         (process_frame target st (.ttsAudio c)).state.flush_pending = false ∧
         ∀ i m lc, (process_frame target st (.ttsAudio c)).calls.get? i =
              some (.pushAudio m lc) → 0 < i)) ∧
    (∀ (target : Nat) (es : List Event),
      schedulerFlushCount target initState es ≤ stopCount es) ∧
    (∀ (target : Nat) (es : List Event),
      eosFrameCount target initState es ≤ stopCount es) := by
  have hmain : ∀ (target : Nat) (es : List Event),
      schedulerFlushCount target initState es ≤ stopCount es := by
    intro target es
    have h := schedulerFlushCount_le target es initState
    simpa [pendingBit, initState] using h
  refine ⟨?_, hmain, hmain⟩
  intro target st c hpend
  refine ⟨?_, rfl, ?_⟩
  · simp [process_frame, hpend]
  · intro i m lc hget
    cases i with
    | zero =>
        exfalso
        rcases hps : pushedSamples c target with _ | k <;>
          simp [process_frame, hpend, hps] at hget
    | succ n => exact Nat.succ_pos n

/-- Witness for C2: a concrete pending-flush state where new audio arrives,
and the spec's two-burst scenario — 1 s of audio, speech-end, 0.5 s more
audio before the flush completes, speech-end, task fires — in which exactly
one flush is issued and the total input duration is 1.5 s. -/
theorem C2_cancel_pending_flush_on_new_audio_witness :
    (process_frame 16000 ⟨true, true, 1, 0⟩
        (.ttsAudio ⟨8000, 16000⟩)).calls.head? =
      some Action.cancelFlushTask ∧
    schedulerFlushCount 16000 initState
        [.ttsStarted, .ttsAudio ⟨16000, 16000⟩, .ttsStopped,
         .ttsAudio ⟨8000, 16000⟩, .ttsStopped, .flushTaskFires] ≤
      stopCount
        [.ttsStarted, .ttsAudio ⟨16000, 16000⟩, .ttsStopped,
         .ttsAudio ⟨8000, 16000⟩, .ttsStopped, .flushTaskFires] ∧
    schedulerFlushCount 16000 initState
        [.ttsStarted, .ttsAudio ⟨16000, 16000⟩, .ttsStopped,
         .ttsAudio ⟨8000, 16000⟩, .ttsStopped, .flushTaskFires] = 1 ∧
    (finalState 16000 initState
        [.ttsStarted, .ttsAudio ⟨16000, 16000⟩, .ttsStopped,
         .ttsAudio ⟨8000, 16000⟩, .ttsStopped,
         .flushTaskFires]).input_audio_duration = 3/2 := by
  refine ⟨(C2_cancel_pending_flush_on_new_audio.1 16000 ⟨true, true, 1, 0⟩
      ⟨8000, 16000⟩ rfl).1,
    C2_cancel_pending_flush_on_new_audio.2.1 16000 _, ?_, ?_⟩
  · decide
  · simp only [finalState, runTrace, List.foldl, process_frame, initState,
      preResampleDuration]
    norm_num

/-! ## C1 — the completion-wait poll loop matches the spec's description -/

theorem monoFrom_take (n : Nat) :
    ∀ (x : ℚ) (ts : List Tick), MonoFrom x ts → MonoFrom x (ts.take n) := by
  induction n with
  | zero =>
      intro x ts _
      simp [MonoFrom]
  | succ n ih =>
      intro x ts h
      cases ts with
      | nil => simpa using h
      | cons t ts =>
          rw [List.take_succ_cons]
          exact ⟨h.1, ih t.out ts h.2⟩

theorem wait_loop_eq_spec_aux (input : ℚ) (hin : 0 < input) :
    ∀ (ts : List Tick) (stc sts : WaitState),
      stc.last = sts.last →
      stc.npc ≤ sts.npc →
      (stc.npc ≠ sts.npc → stc.last / input < 9 / 10) →
      MonoFrom stc.last ts →
      wait_loop input stc ts = spec_wait_loop input sts ts := by
  intro ts
  induction ts with
  | nil =>
      intro stc sts _ _ _ _
      rfl
  | cons t ts ih =>
      intro stc sts hlast hle hinv hmono
      obtain ⟨hxt, hmono2⟩ := hmono
      by_cases hprog : stc.last < t.out
      · -- progress: both counters reset, both record `t.out`
        have hprogs : sts.last < t.out := by rw [← hlast]; exact hprog
        by_cases hr : t.out / input ≥ 49 / 50
        · have hc : wait_step input stc t = .inl .completed := by
            simp [wait_step, hin, progress_update, hprog, wait_check, hr]
          have hs : spec_wait_step input sts t = .inl .completed := by
            simp [spec_wait_step, progress_update, hprogs, spec_wait_check, hr]
          simp only [wait_loop, spec_wait_loop, hc, hs]
        · have hc : wait_step input stc t = .inr ⟨t.out, 0⟩ := by
            simp [wait_step, hin, progress_update, hprog, wait_check, hr,
              max_no_progress_checks]
          have hs : spec_wait_step input sts t = .inr ⟨t.out, 0⟩ := by
            simp [spec_wait_step, progress_update, hprogs, spec_wait_check, hr,
              max_no_progress_checks]
          simp only [wait_loop, spec_wait_loop, hc, hs]
          exact ih ⟨t.out, 0⟩ ⟨t.out, 0⟩ rfl le_rfl (fun h => absurd rfl h) hmono2
      · -- stall: the observed output equals the recorded one (monotonicity)
        have hout : t.out = stc.last := le_antisymm (not_lt.mp hprog) hxt
        have hprogs : ¬ sts.last < t.out := by rw [← hlast]; exact hprog
        have hmono3 : MonoFrom stc.last ts := by rw [← hout]; exact hmono2
        by_cases hr : t.out / input ≥ 49 / 50
        · have hc : wait_step input stc t = .inl .completed := by
            simp [wait_step, hin, progress_update, hprog, wait_check, hr]
          have hs : spec_wait_step input sts t = .inl .completed := by
            simp [spec_wait_step, progress_update, hprogs, spec_wait_check, hr]
          simp only [wait_loop, spec_wait_loop, hc, hs]
        · by_cases heq : stc.npc = sts.npc
          · by_cases h20 : max_no_progress_checks ≤ stc.npc + 1
            · by_cases h90 : t.out / input ≥ 9 / 10
              · have hc : wait_step input stc t = .inl .closeEnough := by
                  simp [wait_step, hin, progress_update, hprog, wait_check, hr,
                    h20, h90]
                have hs : spec_wait_step input sts t = .inl .closeEnough := by
                  have h20s : max_no_progress_checks ≤ sts.npc + 1 := by
                    rw [← heq]; exact h20
                  simp [spec_wait_step, progress_update, hprogs,
                    spec_wait_check, hr, h20s, h90]
                simp only [wait_loop, spec_wait_loop, hc, hs]
              · have hc : wait_step input stc t = .inr ⟨stc.last, 0⟩ := by
                  simp [wait_step, hin, progress_update, hprog, wait_check, hr,
                    h20, h90]
                have hs : spec_wait_step input sts t =
                    .inr ⟨sts.last, sts.npc + 1⟩ := by
                  simp [spec_wait_step, progress_update, hprogs,
                    spec_wait_check, hr, h90]
                simp only [wait_loop, spec_wait_loop, hc, hs]
                refine ih ⟨stc.last, 0⟩ ⟨sts.last, sts.npc + 1⟩ hlast
                  (Nat.zero_le _) (fun _ => ?_) hmono3
                have := not_le.mp (by rw [hout] at h90; exact h90)
                exact this
            · have h20s : ¬ max_no_progress_checks ≤ sts.npc + 1 := by
                rw [← heq]; exact h20
              have hc : wait_step input stc t =
                  .inr ⟨stc.last, stc.npc + 1⟩ := by
                simp [wait_step, hin, progress_update, hprog, wait_check, hr,
                  h20]
              have hs : spec_wait_step input sts t =
                  .inr ⟨sts.last, sts.npc + 1⟩ := by
                simp [spec_wait_step, progress_update, hprogs, spec_wait_check,
                  hr, h20s]
              simp only [wait_loop, spec_wait_loop, hc, hs]
              exact ih ⟨stc.last, stc.npc + 1⟩ ⟨sts.last, sts.npc + 1⟩ hlast
                (show stc.npc + 1 ≤ sts.npc + 1 by omega)
                (fun h =>
                  absurd (show stc.npc + 1 = sts.npc + 1 by omega) h)
                hmono3
          · -- the counters diverged: a reset happened, so the stalled ratio
            -- is below 0.90 and neither loop can exit here
            have hlt : stc.npc < sts.npc := lt_of_le_of_ne hle heq
            have hlow : stc.last / input < 9 / 10 := hinv heq
            have h90 : ¬ t.out / input ≥ 9 / 10 := by
              rw [hout]
              exact not_le.mpr hlow
            have hs : spec_wait_step input sts t =
                .inr ⟨sts.last, sts.npc + 1⟩ := by
              simp [spec_wait_step, progress_update, hprogs, spec_wait_check,
                hr, h90]
            by_cases h20 : max_no_progress_checks ≤ stc.npc + 1
            · have hc : wait_step input stc t = .inr ⟨stc.last, 0⟩ := by
                simp [wait_step, hin, progress_update, hprog, wait_check, hr,
                  h20, h90]
              simp only [wait_loop, spec_wait_loop, hc, hs]
              exact ih ⟨stc.last, 0⟩ ⟨sts.last, sts.npc + 1⟩ hlast
                (Nat.zero_le _) (fun _ => hlow) hmono3
            · have hc : wait_step input stc t =
                  .inr ⟨stc.last, stc.npc + 1⟩ := by
                simp [wait_step, hin, progress_update, hprog, wait_check, hr,
                  h20]
              simp only [wait_loop, spec_wait_loop, hc, hs]
              exact ih ⟨stc.last, stc.npc + 1⟩ ⟨sts.last, sts.npc + 1⟩ hlast
                (show stc.npc + 1 ≤ sts.npc + 1 by omega) (fun _ => hlow)
                hmono3

/-- **C1**: after speech-end, the flush scheduler polls the completion ratio
every 50 ms (`check_interval = 0.05`) up to a deadline `max_wait_time` away,
where `max_wait_time = max(2 * flush_delay, 2 s)` — at least 2 seconds and at
least twice the configured flush delay — and the no-progress window is
20 polls = 1 second; under a positive (fixed) input duration and monotone
output readings, the loop's exit coincides tick-for-tick with the spec-side
loop that proceeds early exactly when the ratio reaches at least 0.98, or
when the output has made no progress for 1 second and the ratio is at least
0.90, and otherwise keeps polling until the deadline. -/
theorem C1_flush_scheduler_poll (cfg : FlushConfig) (input last0 : ℚ)
    (ticks : List Tick) (outs2 : List ℚ)
    (hin : 0 < input) (hmono : MonoFrom last0 ticks) :
    max_wait_time cfg = max (cfg.flush_delay * 2) 2 ∧
    2 ≤ max_wait_time cfg ∧
    cfg.flush_delay * 2 ≤ max_wait_time cfg ∧
    check_interval = 1 / 20 ∧
    (max_no_progress_checks : ℚ) * check_interval = 1 ∧
    (smart_flush cfg input last0 ticks outs2).waitExit =
      spec_wait_loop input ⟨last0, 0⟩ (ticks.take (num_ticks cfg)) := by
  refine ⟨rfl, le_max_right _ _, le_max_left _ _, rfl,
    by norm_num [max_no_progress_checks, check_interval], ?_⟩
  exact wait_loop_eq_spec_aux input hin (ticks.take (num_ticks cfg))
    ⟨last0, 0⟩ ⟨last0, 0⟩ rfl le_rfl (fun h => absurd rfl h)
    (monoFrom_take (num_ticks cfg) last0 ticks hmono)

/-- Witness for C1: flush delay 0.5 s, input 1 s, one poll tick observing a
fully caught-up output. -/
theorem C1_flush_scheduler_poll_witness :
    max_wait_time ⟨1/2⟩ = max ((1:ℚ)/2 * 2) 2 ∧
    2 ≤ max_wait_time ⟨1/2⟩ ∧
    (1:ℚ)/2 * 2 ≤ max_wait_time ⟨1/2⟩ ∧
    check_interval = 1 / 20 ∧
    (max_no_progress_checks : ℚ) * check_interval = 1 ∧
    (smart_flush ⟨1/2⟩ 1 0 [⟨1, none⟩] []).waitExit =
      spec_wait_loop 1 ⟨0, 0⟩ (([⟨1, none⟩] : List Tick).take (num_ticks ⟨1/2⟩)) :=
  C1_flush_scheduler_poll ⟨1/2⟩ 1 0 [⟨1, none⟩] [] (by norm_num)
    (by constructor
        · norm_num
        · trivial)

/-! ## C7 — video forwarding: ordered, lossless, paced -/

theorem generate_frames_step_video (st : GenState) (f : FrcFrame) :
    ((generate_frames_step st f).2).filterMap genVideo = f.image.toList := by
  rcases f with ⟨t, aud, img, eos⟩
  rcases aud with _ | pd <;> rcases img with _ | v <;>
    simp only [generate_frames_step] <;>
    split_ifs <;>
    simp [genVideo]

theorem generate_frames_video (st : GenState) (fs : List FrcFrame) :
    ((generate_frames st fs).2).filterMap genVideo =
      fs.filterMap FrcFrame.image := by
  induction fs generalizing st with
  | nil => rfl
  | cons f fs ih =>
      simp only [generate_frames, List.filterMap_append]
      rw [generate_frames_step_video, ih, List.filterMap_cons]
      rcases himg : f.image with _ | v <;> simp [himg]

theorem generate_frames_step_sleep (st : GenState) (f : FrcFrame) :
    ((generate_frames_step st f).2.any isSleep = true ↔
      (∃ v, f.image = some v) ∧ f.t < st.fps.next_time) := by
  have hwait : (0 < st.fps.wait_next_frame f.t) ↔ f.t < st.fps.next_time := by
    unfold FPSController.wait_next_frame
    rw [lt_max_iff]
    constructor
    · rintro (h | h)
      · exact absurd h (lt_irrefl 0)
      · linarith
    · intro h
      right
      linarith
  rcases f with ⟨t, aud, img, eos⟩
  rcases aud with _ | pd <;> rcases img with _ | v <;>
    simp only [generate_frames_step] <;>
    split_ifs with h1 <;>
    simp_all [isSleep, FPSController.wait_next_frame]

/-- **C7**: for every frame produced by the runtime that carries a video
image, the fastrtc frame generator forwards exactly one video frame to the
downstream sink, in the order produced, never dropping any (the forwarded
video payloads are exactly the image-carrying frames' payloads, in order);
and a pacing sleep is issued on a step exactly when the step's frame carries
an image and arrives before the FPS controller's next scheduled slot, i.e.
faster than the target frame rate. -/
theorem C7_video_frames_paced_never_dropped (st : GenState)
    (fs : List FrcFrame) (f : FrcFrame) :
    ((generate_frames st fs).2).filterMap genVideo =
      fs.filterMap FrcFrame.image ∧
    ((generate_frames_step st f).2.any isSleep = true ↔
      (∃ v, f.image = some v) ∧ f.t < st.fps.next_time) :=
  ⟨generate_frames_video st fs, generate_frames_step_sleep st f⟩

/-! ## C6 — final silence push precedes the flush -/

theorem flush_wait_loop_iff (input : ℚ) (outs : List ℚ) :
    flush_wait_loop input outs = true ↔
      ∃ out ∈ outs, 0 < input ∧ 49/50 ≤ out / input := by
  induction outs with
  | nil => simp [flush_wait_loop]
  | cons o os ih =>
      by_cases h : 0 < input ∧ 49/50 ≤ o / input
      · have hstep : flush_wait_loop input (o :: os) = true := by
          simp [flush_wait_loop, h]
        rw [hstep]
        constructor
        · intro _
          exact ⟨o, List.mem_cons_self _ _, h⟩
        · intro _
          rfl
      · have hstep : flush_wait_loop input (o :: os) = flush_wait_loop input os := by
          simp [flush_wait_loop, h]
        rw [hstep, ih]
        constructor
        · rintro ⟨x, hx, hx2⟩
          exact ⟨x, List.mem_cons_of_mem _ hx, hx2⟩
        · rintro ⟨x, hx, hx2⟩
          rcases List.mem_cons.mp hx with rfl | hx
          · exact absurd hx2 h
          · exact ⟨x, hx, hx2⟩

/-- **C6**: after the completion wait finishes, the scheduler pushes a short
10 ms silence chunk (320 bytes = 160 samples at the 16 kHz runtime rate) with
`last_chunk=True`, then waits — bounded by `flush_wait_timeout = 1 s`, a
strictly shorter timeout than the main wait's `max_wait_time ≥ 2 s` — polling
up to 20 more 50 ms ticks for the ratio to again reach at least 0.98, and only
then calls `flush()` on the runtime: in the issued call sequence the flush
never precedes the last-chunk silence push. -/
theorem C6_final_push_then_flush (cfg : FlushConfig) (input last0 : ℚ)
    (ticks : List Tick) (outs2 : List ℚ) :
    (smart_flush cfg input last0 ticks outs2).calls =
      [.pushAudio silence_samples true, .flushRuntime] ∧
    silence_samples * 2 = 320 ∧
    (silence_samples : ℚ) / 16000 = 1 / 100 ∧
    flush_wait_timeout = 1 ∧
    flush_wait_timeout < max_wait_time cfg ∧
    flush_num_ticks = 20 ∧
    ((smart_flush cfg input last0 ticks outs2).flushWaitCompleted = true ↔
      ∃ out ∈ outs2.take flush_num_ticks, 0 < input ∧ 49/50 ≤ out / input) := by
  refine ⟨rfl, rfl, by norm_num [silence_samples], rfl, ?_, rfl, ?_⟩
  · have h2 : (2:ℚ) ≤ max_wait_time cfg := le_max_right _ _
    unfold flush_wait_timeout
    linarith
  · exact flush_wait_loop_iff input (outs2.take flush_num_ticks)

end AvatarPipeline
